import Mathlib

set_option maxRecDepth 1000000

/-!
Verification of the Fortune 500 dashboard (src/fortune500_streamlit_app.py)
against its natural-language specification.

The embedding mirrors the source:
* a parsed CSV cell is modelled by `Cell` — pandas `read_csv` yields either a
  missing value (NaN, modelled `Cell.na`), a string (object dtype,
  `Cell.str`), an integer (int64 column, `Cell.int`) or a float (float64
  column, `Cell.float`);
* a DataFrame is a header (column names) plus a list of rows (`RawTable`);
  a row carries the six columns the program touches;
* Python `float(...)` / `int(...)` on the stripped strings are modelled by
  `pyFloat` / `pyInt` returning `none` for a ValueError (floats are modelled
  by `ℚ`, exact for every decimal literal involved);
* `load_data` (lines 22-50) is `loadData`; a raised, uncaught exception
  during the column `.apply` normalisation is `LoadResult.exn`;
* the aggregations of the main branch (lines 65-129) are the functions
  after `loadData`.
-/

namespace Fortune

/-- A cell of a parsed DataFrame: missing (NaN), a string, an int64 value or
a float64 value. -/
inductive Cell where
  | na : Cell
  | str : String → Cell
  | int : Int → Cell
  | float : ℚ → Cell
deriving DecidableEq

/-- One DataFrame row, restricted to the six columns the program reads.
A field of a column that is absent from the header is `Cell.na` and is never
consulted (the missing-column check uses the header only). -/
structure Row where
  name : Cell
  revenues : Cell
  profit : Cell
  employees : Cell
  state : Cell
  county : Cell
deriving DecidableEq

/-- A parsed DataFrame: the column names produced by `read_csv` plus the
data rows. -/
structure RawTable where
  header : List String
  rows : List Row
deriving DecidableEq

/-- Numeric value of a cell (int64 and float64 cells only; the default 0 is
never reached on cleaned numeric columns, see `cleaned_rows_numeric`). -/
def Cell.ratVal : Cell → ℚ
  | Cell.int n => (n : ℚ)
  | Cell.float q => q
  | _ => 0

/-- Whether a cell holds a numeric (int64 or float64) value. -/
def numericCell : Cell → Bool
  | Cell.int _ => true
  | Cell.float _ => true
  | _ => false

/-- Whether a cell holds an int64 value. -/
def intCell : Cell → Bool
  | Cell.int _ => true
  | _ => false

/-- Value of a decimal-digit character. -/
def digitVal (c : Char) : Nat := c.toNat - 48

/-- Numeric value of a digit string, most significant digit first. -/
def natOfDigits (l : List Char) : Nat := l.foldl (fun a c => 10 * a + digitVal c) 0

/-- Models Python `float(s)` on plain decimal literals: an optional sign,
then digits with at most one decimal point and at least one digit.  Any
other shape raises ValueError (`none`).  (The exotic forms Python also
accepts — exponents, inf/nan, underscores — do not occur in this program's
data and are mapped to `none`.) -/
def pyFloat (s : String) : Option ℚ :=
  let cs := s.toList
  let sign : ℚ := if cs.head? = some '-' then -1 else 1
  let body := if cs.head? = some '-' ∨ cs.head? = some '+' then cs.drop 1 else cs
  if body.all (fun c => c.isDigit || c = '.') ∧ body.any Char.isDigit ∧
      (body.filter (fun c => c = '.')).length ≤ 1 then
    let intPart := body.takeWhile (fun c => c ≠ '.')
    let fracPart := (body.dropWhile (fun c => c ≠ '.')).drop 1
    some (sign * ((natOfDigits intPart : ℚ) + (natOfDigits fracPart : ℚ) / (10 ^ fracPart.length)))
  else
    none

/-- Models Python `int(s)`: an optional sign followed by one or more digits;
anything else raises ValueError (`none`). -/
def pyInt (s : String) : Option Int :=
  let cs := s.toList
  let sign : Int := if cs.head? = some '-' then -1 else 1
  let body := if cs.head? = some '-' ∨ cs.head? = some '+' then cs.drop 1 else cs
  if body ≠ [] ∧ body.all Char.isDigit then
    some (sign * (natOfDigits body : Int))
  else
    none

/-- Models `str(x).replace('$', '').replace(',', '')`. -/
def stripMoney (s : String) : String :=
  (s.toList.filter (fun c => ¬ (c = '$' ∨ c = ','))).asString

/-- Models `str(x).replace(',', '')`. -/
def stripCommas (s : String) : String :=
  (s.toList.filter (fun c => ¬ c = ',')).asString

/-- Line 46/47 lambda: a string cell is stripped of dollar signs and commas
and parsed as a float; any non-string cell passes through unchanged.
`none` models the uncaught ValueError. -/
def cleanMoney : Cell → Option Cell
  | Cell.str s => (pyFloat (stripMoney s)).map Cell.float
  | c => some c

/-- Line 48 lambda: a string cell is stripped of commas and parsed as an
int; any non-string cell passes through unchanged. -/
def cleanCount : Cell → Option Cell
  | Cell.str s => (pyInt (stripCommas s)).map Cell.int
  | c => some c

/-- One element of the REVENUES column pass (line 46). -/
def stepRev (r : Row) : Option Row :=
  (cleanMoney r.revenues).map (fun c => { r with revenues := c })

/-- One element of the PROFIT column pass (line 47). -/
def stepProfit (r : Row) : Option Row :=
  (cleanMoney r.profit).map (fun c => { r with profit := c })

/-- One element of the EMPLOYEES column pass (line 48). -/
def stepEmp (r : Row) : Option Row :=
  (cleanCount r.employees).map (fun c => { r with employees := c })

/-- Line 43: `df.dropna(subset=['REVENUES', 'PROFIT', 'EMPLOYEES'])`. -/
def dropnaRows (rows : List Row) : List Row :=
  rows.filter (fun r =>
    decide (r.revenues ≠ Cell.na ∧ r.profit ≠ Cell.na ∧ r.employees ≠ Cell.na))

/-- Lines 46-48: the three sequential column `.apply` passes; `none` models
a ValueError raised inside one of the lambdas (uncaught by `load_data`). -/
def cleanRows (rows : List Row) : Option (List Row) :=
  (rows.mapM stepRev).bind fun r1 =>
    (r1.mapM stepProfit).bind fun r2 =>
      r2.mapM stepEmp

/-- Line 35: the required column list, in source order. -/
def requiredColumns : List String :=
  ["REVENUES", "PROFIT", "EMPLOYEES", "NAME", "STATE", "COUNTY"]

/-- Line 37: the list-comprehension of required columns absent from the
parsed header. -/
def missingColumns (t : RawTable) : List String :=
  requiredColumns.filter (fun c => ¬ t.header.contains c)

/-- Outcome of `load_data` after a successful `read_csv`:
* `missingCols missing raw` — line 39/40: the missing-column message is
  shown (`missing` comma-joined) and the raw, uncleaned frame is returned;
* `exn` — a ValueError escaped one of the normalisation lambdas (the
  try/except at lines 24-28 guards only `read_csv`), so nothing is
  returned;
* `table rs` — the cleaned frame of line 50. -/
inductive LoadResult where
  | missingCols : List String → RawTable → LoadResult
  | exn : LoadResult
  | table : List Row → LoadResult
deriving DecidableEq

/-- Lines 35-50 of `load_data`, applied to the parsed DataFrame. -/
def loadData (t : RawTable) : LoadResult :=
  if missingColumns t ≠ [] then
    LoadResult.missingCols (missingColumns t) t
  else
    match cleanRows (dropnaRows t.rows) with
    | none => LoadResult.exn
    | some rs => LoadResult.table rs

/-- Lines 56-63 of the main script: after `load_data`, aggregation runs on
the returned frame exactly when that frame is non-empty (`df.empty` is the
only guard).  Returns the rows the aggregation pass operates on, or `none`
when no aggregation happens.  Note the missing-column branch hands the raw,
uncleaned rows to the aggregations. -/
def mainAggregatesOver (t : RawTable) : Option (List Row) :=
  match loadData t with
  | LoadResult.missingCols _ raw => if raw.rows.isEmpty then none else some raw.rows
  | LoadResult.exn => none
  | LoadResult.table rs => if rs.isEmpty then none else some rs

/-! ### Query/aggregation engine (main branch, lines 65-129) -/

/-- Revenue of a row, as the aggregations read it. -/
def rowRev (r : Row) : ℚ := r.revenues.ratVal

/-- The distinct non-missing STATE values of the table, in first-seen
order.  pandas `groupby` drops missing (NaN) group keys (`dropna=True` is
the default), so `Cell.na` never becomes a key. -/
def distinctStates (rows : List Row) : List Cell :=
  ((rows.map Row.state).filter (fun c => decide (c ≠ Cell.na))).dedup

/-- Line 65: `dict(df.groupby('STATE')['REVENUES'].sum())` — one entry per
distinct non-missing state, mapping it to the summed revenue of its rows.
(pandas additionally sorts the keys; none of the verified claims depends on
entry order.) -/
def stateRevenueDict (rows : List Row) : List (Cell × ℚ) :=
  (distinctStates rows).map (fun st =>
    (st, ((rows.filter (fun r => decide (r.state = st))).map rowRev).sum))

/-- Line 88: `df.pivot_table(values='REVENUES', index='STATE',
aggfunc='mean')` — mean revenue per distinct non-missing state (each group
is non-empty because its key is drawn from the rows). -/
def pivotMeanRevenue (rows : List Row) : List (Cell × ℚ) :=
  (distinctStates rows).map (fun st =>
    (st, ((rows.filter (fun r => decide (r.state = st))).map rowRev).sum /
      ((rows.filter (fun r => decide (r.state = st))).length : ℚ)))

/-- Rows paired with their original positions (the DataFrame row index). -/
def enumRows : Nat → List Row → List (Nat × Row)
  | _, [] => []
  | i, r :: t => (i, r) :: enumRows (i + 1) t

/-- The ascending comparison of the concrete realization used to evaluate
small tables: revenue ascending, equal revenues by original position.
numpy's default quicksort (introsort) coincides with this stable order
only below its small-array insertion-sort threshold — which covers every
table evaluated concretely in this file, but not arbitrary tables, so the
general top-N theorem quantifies over every admissible sort outcome via
`sortsDescBy` instead of this relation. -/
def idxLe (p q : Nat × Row) : Prop :=
  rowRev p.2 < rowRev q.2 ∨ (rowRev p.2 = rowRev q.2 ∧ p.1 ≤ q.1)

instance : DecidableRel idxLe := fun p q =>
  inferInstanceAs (Decidable (rowRev p.2 < rowRev q.2 ∨ (rowRev p.2 = rowRev q.2 ∧ p.1 ≤ q.1)))

instance : IsTotal (Nat × Row) idxLe := ⟨fun p q => by
  unfold idxLe
  rcases lt_trichotomy (rowRev p.2) (rowRev q.2) with h | h | h
  · exact Or.inl (Or.inl h)
  · rcases Nat.le_total p.1 q.1 with hn | hn
    · exact Or.inl (Or.inr ⟨h, hn⟩)
    · exact Or.inr (Or.inr ⟨h.symm, hn⟩)
  · exact Or.inr (Or.inl h)⟩

instance : IsTrans (Nat × Row) idxLe := ⟨by
  intro p q s hpq hqs
  rcases hpq with h1 | ⟨h1, h1'⟩ <;> rcases hqs with h2 | ⟨h2, h2'⟩
  · exact Or.inl (h1.trans h2)
  · exact Or.inl (h2 ▸ h1)
  · exact Or.inl (h1 ▸ h2)
  · exact Or.inr ⟨h1.trans h2, h1'.trans h2'⟩⟩

/-- One admissible outcome of line 77's
`sort_values(by='REVENUES', ascending=False)`: pandas' `nargsort`
computes an ascending argsort and reverses it (`[::-1]`).  This
realization resolves ascending ties by original position, matching
numpy's actual behavior below its small-array insertion-sort threshold
(hence exact on the tables evaluated concretely here); since the default
`kind='quicksort'` is unstable in general, theorems over arbitrary
tables assume only `sortsDescBy`, which leaves the tie order open. -/
def sortedIdxDesc (rows : List Row) : List (Nat × Row) :=
  (List.insertionSort idxLe (enumRows 0 rows)).reverse

/-- What line 77 guarantees at every table size: the output is the
reversal of some ascending-by-revenue arrangement of the indexed rows —
the tie order inside the ascending argsort is unspecified, because the
default numpy quicksort is not stable. -/
def sortsDescBy (rows : List Row) (out : List (Nat × Row)) : Prop :=
  ∃ asc : List (Nat × Row),
    asc.Perm (enumRows 0 rows) ∧
    asc.Pairwise (fun p q => rowRev p.2 ≤ rowRev q.2) ∧
    out = asc.reverse

/-- Line 77's trailing `.head(top_x)`: the first `n` rows of the
descending sort, still paired with their original positions. -/
def topIdx (rows : List Row) (n : Nat) : List (Nat × Row) :=
  (sortedIdxDesc rows).take n

/-- Line 77: the `(NAME, REVENUES)` projection of the top-`n` rows. -/
def topCompanies (rows : List Row) (n : Nat) : List (Cell × ℚ) :=
  (topIdx rows n).map (fun p => (p.2.name, rowRev p.2))

/-- Line 78: `top_companies['REVENUES'].sum()`. -/
def totalRevenueTop (rows : List Row) (n : Nat) : ℚ :=
  ((topIdx rows n).map (fun p => rowRev p.2)).sum

/-- Line 96: `df[df['STATE'] == state]`.  Boolean-mask indexing returns a
copy, never a view that writes back (a NaN state matches nothing, exactly
as `NaN == x` is false in pandas). -/
def stateData (rows : List Row) (st : Cell) : List Row :=
  rows.filter (fun r => decide (r.state = st ∧ r.state ≠ Cell.na))

/-- Python float division, raising ZeroDivisionError (`none`) on a zero
divisor. -/
def pyDiv (a b : ℚ) : Option ℚ :=
  if b = 0 then none else some (a / b)

/-- Lines 99-102 lambda:
`row['PROFIT'] / row['REVENUES'] * 100 if row['REVENUES'] != 0 else 0`.
The conditional is evaluated first, so the division only runs on a nonzero
revenue; `none` would model a division error reaching the caller. -/
def profitMargin (r : Row) : Option ℚ :=
  if r.revenues.ratVal ≠ 0 then
    (pyDiv r.profit.ratVal r.revenues.ratVal).map (fun q => q * 100)
  else
    some 0

/-- Mean of a pandas numeric Series: NaN (`none`) when the series is
empty. -/
def listMean (l : List ℚ) : Option ℚ :=
  if l = [] then none else some (l.sum / (l.length : ℚ))

/-- Line 103: mean of the derived PROFIT_MARGIN column of the filtered
frame; `none` when the selected state matches no row (mean of an empty
series is NaN) — the script displays that value unguarded. -/
def avgProfitMargin (rows : List Row) (st : Cell) : Option ℚ :=
  ((stateData rows st).mapM profitMargin).bind listMean

/-- Line 128: mean of EMPLOYEES over the filtered frame; `none` is the NaN
mean of an empty series. -/
def avgEmployees (rows : List Row) (st : Cell) : Option ℚ :=
  listMean ((stateData rows st).map (fun r => r.employees.ratVal))

/-- Everything one interaction computes from the table for one pair of
user parameters (a top-`n` count and a selected state), plus the binding
`df` holds when the pass is over.  Line 99 attaches the derived margin
column to the filtered copy (`withMargin`), never to `df`; the chart,
map, growth and county displays further down only read `df`. -/
structure AggOutput where
  stateRevenue : List (Cell × ℚ)
  top : List (Cell × ℚ)
  totalTop : ℚ
  pivotMean : List (Cell × ℚ)
  withMargin : List (Row × Option ℚ)
  avgMargin : Option ℚ
  avgEmp : Option ℚ
  df : List Row
deriving DecidableEq

/-- One full aggregation pass of the main branch over the cleaned table. -/
def aggregationPass (df : List Row) (n : Nat) (st : Cell) : AggOutput :=
  { stateRevenue := stateRevenueDict df
    top := topCompanies df n
    totalTop := totalRevenueTop df n
    pivotMean := pivotMeanRevenue df
    withMargin := (stateData df st).map (fun r => (r, profitMargin r))
    avgMargin := avgProfitMargin df st
    avgEmp := avgEmployees df st
    df := df }

/-- The table binding after a sequence of interactions, each with its own
parameters. -/
def runPasses (df : List Row) : List (Nat × Cell) → List Row
  | [] => df
  | p :: ps => runPasses (aggregationPass df p.1 p.2).df ps

/-- One row's normalisation, all three numeric fields in source order
(REVENUES, then PROFIT, then EMPLOYEES); `cleanRows_eq_mapM` shows the
three column passes agree with this row-wise composition. -/
def cleanRowAll (r : Row) : Option Row :=
  (stepRev r).bind fun a => (stepProfit a).bind stepEmp

/-! ### Concrete fixtures (Scenario A of the spec and variants) -/

/-- The full required header, as Scenario A writes it. -/
def fullHeader : List String :=
  ["NAME", "REVENUES", "PROFIT", "EMPLOYEES", "STATE", "COUNTY"]

/-- Scenario A, first raw row. -/
def acmeRaw : Row :=
  { name := Cell.str "Acme", revenues := Cell.str "$1,000.00", profit := Cell.str "$100.00",
    employees := Cell.str "1,000", state := Cell.str "CA", county := Cell.str "Santa Clara" }

/-- Scenario A, second raw row. -/
def betaRaw : Row :=
  { name := Cell.str "Beta", revenues := Cell.str "$500.00", profit := Cell.str "-$50.00",
    employees := Cell.str "500", state := Cell.str "CA", county := Cell.str "Santa Clara" }

/-- The Scenario A parsed input. -/
def scenARaw : RawTable := { header := fullHeader, rows := [acmeRaw, betaRaw] }

/-- Scenario A, first row after cleaning. -/
def acmeClean : Row :=
  { name := Cell.str "Acme", revenues := Cell.float 1000, profit := Cell.float 100,
    employees := Cell.int 1000, state := Cell.str "CA", county := Cell.str "Santa Clara" }

/-- Scenario A, second row after cleaning. -/
def betaClean : Row :=
  { name := Cell.str "Beta", revenues := Cell.float 500, profit := Cell.float (-50),
    employees := Cell.int 500, state := Cell.str "CA", county := Cell.str "Santa Clara" }

/-- The Scenario A cleaned table. -/
def scenAClean : List Row := [acmeClean, betaClean]

/-- An input lacking the PROFIT column but carrying one otherwise complete
data row (a CSV such as NAME,REVENUES,EMPLOYEES,STATE,COUNTY plus one
record). -/
def noProfitRaw : RawTable :=
  { header := ["NAME", "REVENUES", "EMPLOYEES", "STATE", "COUNTY"],
    rows := [{ name := Cell.str "Acme", revenues := Cell.str "$1,000.00", profit := Cell.na,
               employees := Cell.str "10", state := Cell.str "CA",
               county := Cell.str "Santa Clara" }] }

/-- A structurally valid input whose first row has the unparseable revenue
text "abc" (not one of pandas' default NA markers, so it survives
`read_csv` as a string and `dropna` leaves the row in place). -/
def badRevenueRow : Row :=
  { name := Cell.str "Acme", revenues := Cell.str "abc", profit := Cell.str "$100.00",
    employees := Cell.str "1,000", state := Cell.str "CA", county := Cell.str "Santa Clara" }

/-- The parsed input around `badRevenueRow`; the second row is fine. -/
def badRevenueRaw : RawTable := { header := fullHeader, rows := [badRevenueRow, betaRaw] }

/-- An input whose EMPLOYEES column parsed as float64 (e.g. the CSV cell
reads 1000.5), so the cell reaches the cleaning lambda as a non-string. -/
def floatEmpRaw : RawTable :=
  { header := fullHeader, rows := [{ acmeRaw with employees := Cell.float (2001 / 2) }] }

/-- The row `floatEmpRaw` cleans to: the float64 employee count passed
through unchanged. -/
def floatEmpClean : Row := { acmeClean with employees := Cell.float (2001 / 2) }

/-- An input whose single row has an empty STATE cell (NaN after parsing)
but complete numeric fields, so cleaning keeps it. -/
def naStateRaw : RawTable :=
  { header := fullHeader, rows := [{ acmeRaw with state := Cell.na }] }

/-- The cleaned form of `naStateRaw`'s row. -/
def naStateClean : Row := { acmeClean with state := Cell.na }

/-- Two raw rows with equal revenue, Acme first. -/
def tieRaw : RawTable :=
  { header := fullHeader,
    rows := [{ acmeRaw with revenues := Cell.str "$100.00" },
             { betaRaw with revenues := Cell.str "$100.00" }] }

/-- `tieRaw`'s first cleaned row. -/
def tieAcme : Row := { acmeClean with revenues := Cell.float 100 }

/-- `tieRaw`'s second cleaned row. -/
def tieBeta : Row := { betaClean with revenues := Cell.float 100 }

/-! ### Theorems -/

/-- C1: on the one-row input missing PROFIT, `load_data` diagnoses exactly
["PROFIT"], but hands the raw parsed frame back; since that frame is
non-empty, the main script's only guard (`df.empty`) passes and the
aggregation branch runs over the raw, uncleaned rows — contradicting the
claim that processing halts with no Table and no aggregation. -/
theorem load_missing_profit_still_aggregates :
    loadData noProfitRaw = LoadResult.missingCols ["PROFIT"] noProfitRaw ∧
    mainAggregatesOver noProfitRaw = some noProfitRaw.rows ∧
    noProfitRaw.rows ≠ [] :=
  of_decide_eq_true (by with_unfolding_all rfl)

/-- C4: the per-row profit margin is total — it is profit ÷ revenue × 100
for nonzero revenue and 0 for zero revenue, and the guarded division never
produces a division error (the result is always `some`). -/
theorem profitMargin_total (r : Row) :
    profitMargin r =
      some (if r.revenues.ratVal = 0 then 0 else r.profit.ratVal / r.revenues.ratVal * 100) ∧
    (profitMargin r).isSome = true := by
  by_cases h : r.revenues.ratVal = 0 <;> simp [profitMargin, pyDiv, h]

/-- C8 (Scenario A): on the two-row Acme/Beta input the cleaned revenues
are [1000, 500], revenue-by-state is {CA ↦ 1500}, top-1 is [(Acme, 1000)],
the margins are 10 and -10, and the mean margin for CA is 0. -/
theorem scenA_end_to_end :
    loadData scenARaw = LoadResult.table scenAClean ∧
    scenAClean.map rowRev = [1000, 500] ∧
    stateRevenueDict scenAClean = [(Cell.str "CA", 1500)] ∧
    topCompanies scenAClean 1 = [(Cell.str "Acme", 1000)] ∧
    scenAClean.map profitMargin = [some 10, some (-10)] ∧
    avgProfitMargin scenAClean (Cell.str "CA") = some 0 :=
  of_decide_eq_true (by with_unfolding_all rfl)

/-- Helper for C9: a sequence of passes never changes the table binding. -/
theorem runPasses_fixes : ∀ (ps : List (Nat × Cell)) (df : List Row), runPasses df ps = df
  | [], _ => rfl
  | _ :: ps, df => runPasses_fixes ps df

/-- C9: an aggregation pass leaves `df` exactly as `load_data` produced it;
the derived margin column lives only on the per-query filtered copy
(`withMargin`), and any sequence of passes with any parameters still ends
with the original table. -/
theorem aggregation_never_mutates (df : List Row) (n : Nat) (st : Cell) :
    (aggregationPass df n st).df = df ∧
    (aggregationPass df n st).withMargin =
      (stateData df st).map (fun r => (r, profitMargin r)) ∧
    ∀ ps : List (Nat × Cell), runPasses df ps = df :=
  ⟨rfl, rfl, fun ps => runPasses_fixes ps df⟩

/-- C6 counterexample: the cleaned Scenario A table has no TX row, and the
code's mean margin and mean employees for TX are the undefined mean of an
empty series (NaN, modelled `none`) — not a defined sentinel value, so the
claim fails on the code. -/
theorem empty_region_no_sentinel :
    stateData scenAClean (Cell.str "TX") = [] ∧
    (avgProfitMargin scenAClean (Cell.str "TX")).isSome = false ∧
    (avgEmployees scenAClean (Cell.str "TX")).isSome = false :=
  of_decide_eq_true (by with_unfolding_all rfl)

/-- C6 amended: when the selected state matches zero rows, both means are
the NaN mean-of-empty (`none`), which the script displays unguarded. -/
theorem empty_region_means_nan (rows : List Row) (st : Cell)
    (h : stateData rows st = []) :
    avgProfitMargin rows st = none ∧ avgEmployees rows st = none := by
  unfold avgProfitMargin avgEmployees
  rw [h]
  exact ⟨rfl, rfl⟩

/-- C6 witness: the amended statement at the Scenario A table and TX. -/
theorem empty_region_means_nan_witness :
    avgProfitMargin scenAClean (Cell.str "TX") = none ∧
    avgEmployees scenAClean (Cell.str "TX") = none :=
  empty_region_means_nan scenAClean (Cell.str "TX") (of_decide_eq_true (by with_unfolding_all rfl))

/-- C2 counterexample: an accepted input whose EMPLOYEES column is float64
(CSV cell 1000.5) cleans to a row whose employee count is still a float,
not an integer — the non-string cell passes through the line 48 lambda
unchanged, so the claim's typing clause fails. -/
theorem employees_not_int_on_float_passthrough :
    loadData floatEmpRaw = LoadResult.table [floatEmpClean] ∧
    floatEmpClean.employees = Cell.float (2001 / 2) ∧
    intCell floatEmpClean.employees = false :=
  of_decide_eq_true (by with_unfolding_all rfl)

/-- C3 counterexample: on two cleaned rows of equal revenue with Acme
first, top-2 lists Beta before Acme — ties come out in reversed original
order (pandas sorts ascending and reverses), falsifying the claim's
stable (original-order) tie-breaking. -/
theorem ties_not_in_original_order :
    loadData tieRaw = LoadResult.table [tieAcme, tieBeta] ∧
    tieAcme.name = Cell.str "Acme" ∧
    tieBeta.name = Cell.str "Beta" ∧
    rowRev tieAcme = rowRev tieBeta ∧
    topCompanies [tieAcme, tieBeta] 2 = [(Cell.str "Beta", 100), (Cell.str "Acme", 100)] :=
  of_decide_eq_true (by with_unfolding_all rfl)

/-- C5 counterexample: a cleaned table whose single row has a missing
STATE sums to 1000 revenue, but the revenue-by-state mapping is empty
(groupby drops the NaN key), so the mapping's total 0 differs from the
table's total. -/
theorem partition_fails_on_missing_state :
    loadData naStateRaw = LoadResult.table [naStateClean] ∧
    stateRevenueDict [naStateClean] = [] ∧
    ([naStateClean].map rowRev).sum = 1000 ∧
    ((stateRevenueDict [naStateClean]).map Prod.snd).sum ≠ ([naStateClean].map rowRev).sum :=
  of_decide_eq_true (by with_unfolding_all rfl)

/-- C7 counterexample: a surviving row whose revenue text "abc" cannot be
parsed makes the line-46 lambda raise ValueError; the try/except guards
only `read_csv`, so the error escapes `load_data` — no Table is returned
and the row is not merely excluded. -/
theorem unparseable_text_raises :
    loadData badRevenueRaw = LoadResult.exn :=
  of_decide_eq_true (by with_unfolding_all rfl)

theorem optionMapM_mem {α β : Type} (f : α → Option β) :
    ∀ {l : List α} {l' : List β}, l.mapM f = some l' → ∀ b ∈ l', ∃ a ∈ l, f a = some b := by
  intro l
  induction l with
  | nil =>
    intro l' h b hb
    rw [List.mapM_nil] at h
    cases h
    cases hb
  | cons a t ih =>
    intro l' h b hb
    rw [List.mapM_cons] at h
    cases hfa : f a with
    | none =>
      rw [hfa] at h
      simp at h
    | some x =>
      rw [hfa] at h
      cases hmt : t.mapM f with
      | none =>
        rw [hmt] at h
        simp at h
      | some xs =>
        rw [hmt] at h
        simp only [Option.bind_eq_bind, Option.some_bind, pure] at h
        cases h
        rcases List.mem_cons.mp hb with rfl | hb'
        · exact ⟨a, List.mem_cons_self a t, hfa⟩
        · obtain ⟨a', ha', hfa'⟩ := ih hmt b hb'
          exact ⟨a', List.mem_cons_of_mem a ha', hfa'⟩

theorem optionMapM_none {α β : Type} (f : α → Option β) {a : α} :
    ∀ {l : List α}, a ∈ l → f a = none → l.mapM f = none := by
  intro l
  induction l with
  | nil => intro h _; cases h
  | cons x t ih =>
    intro ha hfa
    rw [List.mapM_cons]
    rcases List.mem_cons.mp ha with rfl | ha'
    · rw [hfa]; rfl
    · cases hfx : f x with
      | none => rfl
      | some b => rw [ih ha' hfa]; simp

theorem optionMapM_comp {α β γ : Type} (f : α → Option β) (g : β → Option γ) :
    ∀ l : List α, (l.mapM f).bind (fun l' => l'.mapM g) = l.mapM (fun a => (f a).bind g) := by
  intro l
  induction l with
  | nil => rfl
  | cons a t ih =>
    rw [List.mapM_cons, List.mapM_cons]
    cases hfa : f a with
    | none => simp
    | some b =>
      simp only [Option.bind_eq_bind, Option.some_bind]
      cases hmt : t.mapM f with
      | none =>
        have hrhs : t.mapM (fun a => (f a).bind g) = none := by
          rw [← ih, hmt]; rfl
        rw [hrhs]
        cases hgb : g b <;>
          simp only [Option.bind_eq_bind, Option.none_bind, Option.some_bind]
      | some bs =>
        have hrhs : t.mapM (fun a => (f a).bind g) = bs.mapM g := by
          rw [← ih, hmt]; rfl
        rw [hrhs]
        simp only [Option.bind_eq_bind, Option.some_bind, pure]
        rw [List.mapM_cons]
        simp only [Option.bind_eq_bind, pure]

theorem cleanRows_eq_mapM (l : List Row) : cleanRows l = l.mapM cleanRowAll := by
  unfold cleanRows cleanRowAll
  simp only [optionMapM_comp]


theorem stepRev_some {r r' : Row} (h : stepRev r = some r') :
    r'.profit = r.profit ∧ r'.employees = r.employees ∧
    (r.revenues ≠ Cell.na → numericCell r'.revenues = true) := by
  unfold stepRev at h
  cases hc : r.revenues with
  | na =>
    rw [hc] at h
    simp only [cleanMoney, Option.map_some'] at h
    cases h
    exact ⟨rfl, rfl, fun hne => absurd rfl hne⟩
  | str s =>
    rw [hc] at h
    simp only [cleanMoney] at h
    cases hp : pyFloat (stripMoney s) with
    | none => rw [hp] at h; cases h
    | some q =>
      rw [hp] at h
      simp only [Option.map_some'] at h
      cases h
      exact ⟨rfl, rfl, fun _ => rfl⟩
  | int n =>
    rw [hc] at h
    simp only [cleanMoney, Option.map_some'] at h
    cases h
    exact ⟨rfl, rfl, fun _ => rfl⟩
  | float q =>
    rw [hc] at h
    simp only [cleanMoney, Option.map_some'] at h
    cases h
    exact ⟨rfl, rfl, fun _ => rfl⟩


theorem stepProfit_some {r r' : Row} (h : stepProfit r = some r') :
    r'.revenues = r.revenues ∧ r'.employees = r.employees ∧
    (r.profit ≠ Cell.na → numericCell r'.profit = true) := by
  unfold stepProfit at h
  cases hc : r.profit with
  | na =>
    rw [hc] at h
    simp only [cleanMoney, Option.map_some'] at h
    cases h
    exact ⟨rfl, rfl, fun hne => absurd rfl hne⟩
  | str s =>
    rw [hc] at h
    simp only [cleanMoney] at h
    cases hp : pyFloat (stripMoney s) with
    | none => rw [hp] at h; cases h
    | some q =>
      rw [hp] at h
      simp only [Option.map_some'] at h
      cases h
      exact ⟨rfl, rfl, fun _ => rfl⟩
  | int n =>
    rw [hc] at h
    simp only [cleanMoney, Option.map_some'] at h
    cases h
    exact ⟨rfl, rfl, fun _ => rfl⟩
  | float q =>
    rw [hc] at h
    simp only [cleanMoney, Option.map_some'] at h
    cases h
    exact ⟨rfl, rfl, fun _ => rfl⟩

theorem stepEmp_some {r r' : Row} (h : stepEmp r = some r') :
    r'.revenues = r.revenues ∧ r'.profit = r.profit ∧
    (r.employees ≠ Cell.na → numericCell r'.employees = true) := by
  unfold stepEmp at h
  cases hc : r.employees with
  | na =>
    rw [hc] at h
    simp only [cleanCount, Option.map_some'] at h
    cases h
    exact ⟨rfl, rfl, fun hne => absurd rfl hne⟩
  | str s =>
    rw [hc] at h
    simp only [cleanCount] at h
    cases hp : pyInt (stripCommas s) with
    | none => rw [hp] at h; cases h
    | some n =>
      rw [hp] at h
      simp only [Option.map_some'] at h
      cases h
      exact ⟨rfl, rfl, fun _ => rfl⟩
  | int n =>
    rw [hc] at h
    simp only [cleanCount, Option.map_some'] at h
    cases h
    exact ⟨rfl, rfl, fun _ => rfl⟩
  | float q =>
    rw [hc] at h
    simp only [cleanCount, Option.map_some'] at h
    cases h
    exact ⟨rfl, rfl, fun _ => rfl⟩

theorem cleaned_rows_numeric (raw : RawTable) (rs : List Row)
    (h : loadData raw = LoadResult.table rs) :
    ∀ r ∈ rs, numericCell r.revenues = true ∧ numericCell r.profit = true ∧
      numericCell r.employees = true := by
  intro r hr
  unfold loadData at h
  by_cases hm : missingColumns raw ≠ []
  · rw [if_pos hm] at h; cases h
  · rw [if_neg hm] at h
    cases hc : cleanRows (dropnaRows raw.rows) with
    | none => rw [hc] at h; cases h
    | some rs' =>
      rw [hc] at h
      injection h with h'
      subst h'
      rw [cleanRows_eq_mapM] at hc
      obtain ⟨a, ha, hca⟩ := optionMapM_mem _ hc r hr
      have hna : a.revenues ≠ Cell.na ∧ a.profit ≠ Cell.na ∧ a.employees ≠ Cell.na := by
        have hmem := (List.mem_filter.mp ha).2
        simpa using hmem
      unfold cleanRowAll at hca
      cases hsr : stepRev a with
      | none => rw [hsr] at hca; cases hca
      | some b =>
        rw [hsr, Option.some_bind] at hca
        cases hsp : stepProfit b with
        | none => rw [hsp] at hca; cases hca
        | some c =>
          rw [hsp, Option.some_bind] at hca
          obtain ⟨hb_p, hb_e, hb_r⟩ := stepRev_some hsr
          obtain ⟨hc_r, hc_e, hc_p⟩ := stepProfit_some hsp
          obtain ⟨hr_r, hr_p, hr_e⟩ := stepEmp_some hca
          refine ⟨?_, ?_, ?_⟩
          · rw [hr_r, hc_r]
            exact hb_r hna.1
          · rw [hr_p]
            exact hc_p (hb_p ▸ hna.2.1)
          · exact hr_e (hc_e ▸ hb_e ▸ hna.2.2)

theorem cleaned_rows_numeric_witness :
    numericCell acmeClean.revenues = true ∧ numericCell acmeClean.profit = true ∧
      numericCell acmeClean.employees = true :=
  cleaned_rows_numeric scenARaw scenAClean (of_decide_eq_true (by with_unfolding_all rfl))
    acmeClean (by decide)

theorem normalization_failure_escapes (raw : RawTable) (r : Row)
    (hm : missingColumns raw = [])
    (hr : r ∈ dropnaRows raw.rows)
    (hf : cleanRowAll r = none) :
    loadData raw = LoadResult.exn := by
  unfold loadData
  rw [if_neg (by simp [hm])]
  have hnone : cleanRows (dropnaRows raw.rows) = none := by
    rw [cleanRows_eq_mapM]
    exact optionMapM_none _ hr hf
  rw [hnone]

theorem normalization_failure_escapes_witness : loadData badRevenueRaw = LoadResult.exn :=
  normalization_failure_escapes badRevenueRaw badRevenueRow (by decide) (by decide)
    (of_decide_eq_true (by with_unfolding_all rfl))

/-- The sum over a filtered list equals the sum of the guard-selected
values over the whole list. -/
theorem sum_filter_ite {α : Type} (p : α → Bool) (f : α → ℚ) :
    ∀ l : List α, ((l.filter p).map f).sum = (l.map (fun a => if p a then f a else 0)).sum := by
  intro l
  induction l with
  | nil => rfl
  | cons a t ih =>
    by_cases hp : p a
    · simp [List.filter_cons, hp, ih]
    · simp [List.filter_cons, hp, ih]

/-- A finite sum of list sums can be computed list-first. -/
theorem finsetSum_listSum_swap {κ α : Type} [DecidableEq κ] (s : Finset κ)
    (g : κ → α → ℚ) :
    ∀ l : List α, (∑ x ∈ s, (l.map (g x)).sum) = (l.map (fun a => ∑ x ∈ s, g x a)).sum := by
  intro l
  induction l with
  | nil => simp
  | cons a t ih =>
    simp only [List.map_cons, List.sum_cons]
    rw [Finset.sum_add_distrib, ih]

/-- Membership in the group keys: a cell is a key exactly when some row
has it as STATE and it is not the missing value. -/
theorem mem_distinctStates {rows : List Row} {c : Cell} :
    c ∈ distinctStates rows ↔ (c ∈ rows.map Row.state ∧ c ≠ Cell.na) := by
  unfold distinctStates
  rw [List.mem_dedup, List.mem_filter]
  simp

/-- The grouped revenue totals sum to the total revenue of the rows whose
STATE is present — the groupby partitions exactly the non-missing-state
rows. -/
theorem stateRevenueDict_sum_filter (rows : List Row) :
    ((stateRevenueDict rows).map Prod.snd).sum =
      ((rows.filter (fun r => decide (r.state ≠ Cell.na))).map rowRev).sum := by
  unfold stateRevenueDict
  rw [List.map_map]
  have hnd : (distinctStates rows).Nodup := List.nodup_dedup _
  have h1 : (Prod.snd ∘ fun st => (st, ((rows.filter (fun r => decide (r.state = st))).map rowRev).sum)) =
      fun st => ((rows.filter (fun r => decide (r.state = st))).map rowRev).sum := rfl
  rw [h1, ← List.sum_toFinset _ hnd]
  have h2 : ∀ st, ((rows.filter (fun r => decide (r.state = st))).map rowRev).sum =
      (rows.map (fun r => if decide (r.state = st) then rowRev r else 0)).sum := by
    intro st
    exact sum_filter_ite _ _ rows
  calc (∑ st ∈ (distinctStates rows).toFinset,
          ((rows.filter (fun r => decide (r.state = st))).map rowRev).sum)
      = ∑ st ∈ (distinctStates rows).toFinset,
          (rows.map (fun r => if decide (r.state = st) then rowRev r else 0)).sum := by
        exact Finset.sum_congr rfl (fun st _ => h2 st)
    _ = (rows.map (fun r => ∑ st ∈ (distinctStates rows).toFinset,
          if decide (r.state = st) then rowRev r else 0)).sum := by
        exact finsetSum_listSum_swap _ _ rows
    _ = (rows.map (fun r => if decide (r.state ≠ Cell.na) then rowRev r else 0)).sum := by
        congr 1
        apply List.map_congr_left
        intro r hr
        simp only [decide_eq_true_eq]
        rw [Finset.sum_ite_eq]
        by_cases hna : r.state = Cell.na
        · rw [if_neg, if_neg]
          · exact fun h => h hna
          · rw [List.mem_toFinset, mem_distinctStates]
            rintro ⟨-, hne⟩
            exact hne hna
        · rw [if_pos, if_pos hna]
          rw [List.mem_toFinset, mem_distinctStates]
          exact ⟨List.mem_map_of_mem _ hr, hna⟩
    _ = ((rows.filter (fun r => decide (r.state ≠ Cell.na))).map rowRev).sum := by
        rw [sum_filter_ite]

/-- `enumRows` preserves length. -/
theorem enumRows_length : ∀ (i : Nat) (l : List Row), (enumRows i l).length = l.length
  | _, [] => rfl
  | i, _ :: t => by simp [enumRows, enumRows_length (i + 1) t]

/-- Dropping the positions of `enumRows` recovers the rows. -/
theorem enumRows_map_snd : ∀ (i : Nat) (l : List Row), (enumRows i l).map Prod.snd = l
  | _, [] => rfl
  | i, r :: t => by simp [enumRows, enumRows_map_snd (i + 1) t]

/-- Positions produced by `enumRows i` are at least `i`. -/
theorem enumRows_fst_ge : ∀ (i : Nat) (l : List Row) (p : Nat × Row), p ∈ enumRows i l → i ≤ p.1
  | i, [], p, h => absurd h (by simp [enumRows])
  | i, r :: t, p, h => by
    rcases List.mem_cons.mp h with rfl | h'
    · exact Nat.le_refl i
    · exact Nat.le_of_succ_le (enumRows_fst_ge (i + 1) t p h')

/-- The positions of `enumRows` are strictly increasing. -/
theorem enumRows_pairwise_lt : ∀ (i : Nat) (l : List Row),
    (enumRows i l).Pairwise (fun p q => p.1 < q.1)
  | _, [] => List.Pairwise.nil
  | i, r :: t => by
    refine List.Pairwise.cons ?_ (enumRows_pairwise_lt (i + 1) t)
    intro q hq
    exact Nat.lt_of_lt_of_le (Nat.lt_succ_self i) (enumRows_fst_ge (i + 1) t q hq)

/-- The positions of `enumRows` are distinct. -/
theorem enumRows_fst_nodup (i : Nat) (l : List Row) :
    ((enumRows i l).map Prod.fst).Nodup :=
  List.pairwise_map.mpr ((enumRows_pairwise_lt i l).imp (fun h => Nat.ne_of_lt h))

/-- The descending sort is a permutation of the indexed rows. -/
theorem sortedIdxDesc_perm (rows : List Row) :
    (sortedIdxDesc rows).Perm (enumRows 0 rows) := by
  unfold sortedIdxDesc
  exact (List.reverse_perm _).trans (List.perm_insertionSort _ _)

/-- The group keys of the revenue dictionary are exactly the distinct
non-missing states. -/
theorem stateRevenueDict_keys (rows : List Row) :
    (stateRevenueDict rows).map Prod.fst = distinctStates rows := by
  unfold stateRevenueDict
  rw [List.map_map]
  exact List.map_id'' (fun x => rfl) _

/-- The group keys of the pivot table are exactly the distinct
non-missing states. -/
theorem pivotMeanRevenue_keys (rows : List Row) :
    (pivotMeanRevenue rows).map Prod.fst = distinctStates rows := by
  unfold pivotMeanRevenue
  rw [List.map_map]
  exact List.map_id'' (fun x => rfl) _

/-- The missing value is never a group key. -/
theorem na_not_in_distinctStates (rows : List Row) : Cell.na ∉ distinctStates rows := by
  intro h
  exact (mem_distinctStates.mp h).2 rfl

/-- The concrete realization is one admissible `sort_values` outcome. -/
theorem sortedIdxDesc_sortsDescBy (rows : List Row) :
    sortsDescBy rows (sortedIdxDesc rows) := by
  refine ⟨List.insertionSort idxLe (enumRows 0 rows), List.perm_insertionSort _ _, ?_, rfl⟩
  have hs : List.Sorted idxLe (List.insertionSort idxLe (enumRows 0 rows)) :=
    List.sorted_insertionSort idxLe (enumRows 0 rows)
  refine hs.imp ?_
  intro p q h
  rcases h with hlt | ⟨heq, -⟩
  · exact le_of_lt hlt
  · exact le_of_eq heq

/-- C3 (amended): for every cleaned table, every N in [1, 50], and every
outcome the descending sort of line 77 may produce (`sortsDescBy` — the
tie order is unspecified), the top-N selection is sorted by revenue
descending, has length min(N, row count), and its rows are drawn without
duplication from the table.  No tie-order clause holds in general: the
default quicksort is unstable, and on the concrete two-row tie of
`ties_not_in_original_order` the order comes out reversed. -/
theorem topN_sorted_length_subperm (rows : List Row) (n : Nat)
    (out : List (Nat × Row)) (_hlo : 1 ≤ n) (_hhi : n ≤ 50)
    (hout : sortsDescBy rows out) :
    (out.take n).Pairwise (fun p q => rowRev q.2 ≤ rowRev p.2) ∧
    (out.take n).length = min n rows.length ∧
    ((out.take n).map Prod.snd).Subperm rows := by
  obtain ⟨asc, hperm, hsorted, rfl⟩ := hout
  refine ⟨?_, ?_, ?_⟩
  · have hdesc : asc.reverse.Pairwise (fun p q => rowRev q.2 ≤ rowRev p.2) :=
      List.pairwise_reverse.mpr hsorted
    exact hdesc.sublist (List.take_sublist n _)
  · rw [List.length_take, List.length_reverse, hperm.length_eq, enumRows_length]
  · have h3 : List.Sublist ((asc.reverse.take n).map Prod.snd) (asc.reverse.map Prod.snd) :=
      (List.take_sublist n _).map Prod.snd
    have h4 : (asc.reverse.map Prod.snd).Perm rows := by
      have h5 := ((List.reverse_perm asc).trans hperm).map Prod.snd
      rw [enumRows_map_snd] at h5
      exact h5
    exact h3.subperm.trans h4.subperm

/-- C3 witness: the amended top-N statement at the Scenario A table with
N = 1, instantiated at the concrete sort outcome. -/
theorem topN_sorted_length_subperm_witness :
    ((sortedIdxDesc scenAClean).take 1).Pairwise (fun p q => rowRev q.2 ≤ rowRev p.2) ∧
    ((sortedIdxDesc scenAClean).take 1).length = min 1 scenAClean.length ∧
    (((sortedIdxDesc scenAClean).take 1).map Prod.snd).Subperm scenAClean :=
  topN_sorted_length_subperm scenAClean 1 (sortedIdxDesc scenAClean) (by decide) (by decide)
    (sortedIdxDesc_sortsDescBy scenAClean)

/-- C5 (amended): when every row's STATE is present, the summed
revenue-by-state mapping equals the table's total revenue (the groupby
partitions the table). -/
theorem stateRevenue_partition (rows : List Row)
    (h : ∀ r ∈ rows, r.state ≠ Cell.na) :
    ((stateRevenueDict rows).map Prod.snd).sum = (rows.map rowRev).sum := by
  have hf : rows.filter (fun r => decide (r.state ≠ Cell.na)) = rows :=
    List.filter_eq_self.mpr (fun r hr => by simpa using h r hr)
  rw [stateRevenueDict_sum_filter, hf]

/-- C5 witness: the partition property at the Scenario A table. -/
theorem stateRevenue_partition_witness :
    ((stateRevenueDict scenAClean).map Prod.snd).sum = (scenAClean.map rowRev).sum :=
  stateRevenue_partition scenAClean (by decide)

/-- C10: rows with a missing STATE stay in the top-N candidate pool (the
sort permutes exactly the table's rows, no state filter), never appear as
a key of the revenue-by-state or mean-revenue-by-state mappings, and the
revenue-by-state totals sum only over the rows whose state is present. -/
theorem missing_state_rows_kept_but_ungrouped (rows : List Row) :
    ((sortedIdxDesc rows).map Prod.snd).Perm rows ∧
    Cell.na ∉ (stateRevenueDict rows).map Prod.fst ∧
    Cell.na ∉ (pivotMeanRevenue rows).map Prod.fst ∧
    ((stateRevenueDict rows).map Prod.snd).sum =
      ((rows.filter (fun r => decide (r.state ≠ Cell.na))).map rowRev).sum := by
  refine ⟨?_, ?_, ?_, stateRevenueDict_sum_filter rows⟩
  · have h5 := (sortedIdxDesc_perm rows).map Prod.snd
    rw [enumRows_map_snd] at h5
    exact h5
  · rw [stateRevenueDict_keys]
    exact na_not_in_distinctStates rows
  · rw [pivotMeanRevenue_keys]
    exact na_not_in_distinctStates rows

end Fortune
